import Mathlib

/-!
Verification of the Jaoken surface-material estimators.

The JavaScript sources (`calculator-logic.js`, `wallpaper-logic.js`,
`app.js`) are embedded shallowly over `ℚ`: every numeric quantity of the
program is modelled as an exact rational, `Math.floor`/`Math.ceil` become
`Int.floor`/`Int.ceil`, and the JavaScript remainder `x % 1` (which keeps
the sign of the dividend) is modelled explicitly by `jsMod1`.
-/

/-- JavaScript `x % 1`: the fractional remainder, carrying the sign of the
dividend (`-5.3 % 1 = -0.3`, `5.3 % 1 = 0.3`, `-5 % 1 = -0 = 0`). -/
def jsMod1 (q : ℚ) : ℚ := if 0 ≤ q then q - ⌊q⌋ else q - ⌈q⌉

/-- JavaScript `a || b` on numbers (for non-NaN values): `b` when `a` is
`0`, otherwise `a`. -/
def jsOr (a b : ℚ) : ℚ := if a = 0 then b else a

namespace TileLogic

/-- A wall record `{w, h}` as consumed by `TileLogic.calculateAll`. -/
structure Wall where
  w : ℚ
  h : ℚ
deriving DecidableEq

/-- An opening record `{width, height}` as consumed by
`TileLogic.calcTotalDeduction`. -/
structure Opening where
  width : ℚ
  height : ℚ
deriving DecidableEq

/-- `calcTotalDeduction` (calculator-logic.js lines 69-74): sum of
`opening.width × opening.height` over the list. -/
def calcTotalDeduction (openings : List Opening) : ℚ :=
  openings.foldl (fun sum op => sum + op.width * op.height) 0

/-- The per-axis rounding of `calculateAll` (lines 124-127 and 130-133):
`final = (decimal > 0.5) ? Math.ceil(count) : (Math.floor(count) + 0.5)`,
then overridden by `count` itself when `decimal === 0`. -/
def axisFinal (count : ℚ) : ℚ :=
  let d := jsMod1 count
  let f : ℚ := if (1 : ℚ)/2 < d then (⌈count⌉ : ℚ) else (⌊count⌋ : ℚ) + 1/2
  if d = 0 then count else f

/-- One wall's contribution to `totalBaseCount` (lines 116-138): guarded by
`wW > 0 && wH > 0`, otherwise `finalX * finalY`. -/
def wallContribution (tLenM tWidM : ℚ) (wall : Wall) : ℚ :=
  if 0 < wall.w ∧ 0 < wall.h then
    axisFinal (wall.w / tLenM) * axisFinal (wall.h / tWidM)
  else 0

/-- One wall's contribution to `totalGrossArea` (lines 120-121). -/
def wallGross (wall : Wall) : ℚ :=
  if 0 < wall.w ∧ 0 < wall.h then wall.w * wall.h else 0

/-- The parameter record of `calculateAll`.  `wastePercent` is an
`Option` because the code distinguishes `params.wastePercent != null`
(line 109) from a supplied number. -/
structure TileParams where
  walls : List Wall
  openings : List Opening
  tileLengthCm : ℚ
  tileWidthCm : ℚ
  wastePercent : Option ℚ
  sqmPerBox : ℚ

/-- The result record of `calculateAll` (lines 154-163). -/
structure TileResult where
  grossArea : ℚ
  totalDeduction : ℚ
  netArea : ℚ
  baseCount : ℤ
  finalCount : ℤ
  purchaseArea : ℚ
  boxCount : ℤ
  wasteTiles : ℤ
deriving DecidableEq

/-- `Σ wallGross` over the wall list (the value of `totalGrossArea` after
the `forEach`). -/
def grossAreaOf (p : TileParams) : ℚ :=
  (p.walls.map wallGross).sum

/-- `Σ wallContribution` over the wall list (the value of
`totalBaseCount` after the `forEach`, before the opening deduction). -/
def rawBaseCount (p : TileParams) : ℚ :=
  (p.walls.map (wallContribution (p.tileLengthCm / 100) (p.tileWidthCm / 100))).sum

/-- The `waste` local of `calculateAll` (line 109):
`(params.wastePercent != null) ? (parseFloat(params.wastePercent) || 0) : 0`. -/
def wasteOf (p : TileParams) : ℚ :=
  match p.wastePercent with
  | some w => w
  | none => 0

/-- The value of `totalBaseCount` after the opening deduction (lines
144-148): when both `totalGrossArea > 0` and `totalDeduction > 0`, the
equivalent-tile count `totalDeduction / (tLenM * tWidM)` is subtracted
and the result floored at `0`. -/
def adjustedBaseCount (p : TileParams) : ℚ :=
  if 0 < grossAreaOf p ∧ 0 < calcTotalDeduction p.openings then
    max 0 (rawBaseCount p -
      calcTotalDeduction p.openings / (p.tileLengthCm / 100 * (p.tileWidthCm / 100)))
  else rawBaseCount p

/-- `TileLogic.calculateAll` (calculator-logic.js lines 103-164). -/
def calculateAll (p : TileParams) : TileResult :=
  let tLenM := p.tileLengthCm / 100
  let tWidM := p.tileWidthCm / 100
  let finalCount : ℤ := ⌈adjustedBaseCount p * (1 + wasteOf p / 100)⌉
  let purchaseArea := (finalCount : ℚ) * (tLenM * tWidM)
  { grossArea := grossAreaOf p
    totalDeduction := calcTotalDeduction p.openings
    netArea := max 0 (grossAreaOf p - calcTotalDeduction p.openings)
    baseCount := ⌈adjustedBaseCount p⌉
    finalCount := finalCount
    purchaseArea := purchaseArea
    boxCount := if 0 < p.sqmPerBox then ⌈purchaseArea / p.sqmPerBox⌉ else 0
    wasteTiles := finalCount - ⌈adjustedBaseCount p⌉ }

/-- The per-axis half-up rule as the specification words it: with
`frac = count mod 1`, an exact division keeps `count`; `frac > 0.5`
rounds up to `ceil(count)`; a remainder `0 < frac ≤ 0.5` gives
`floor(count) + 0.5`. -/
def axisHalfUpSpec (count : ℚ) : ℚ :=
  if Int.fract count = 0 then count
  else if (1 : ℚ)/2 < Int.fract count then (⌈count⌉ : ℚ)
  else (⌊count⌋ : ℚ) + 1/2

end TileLogic

namespace WallpaperLogic

/-- The parameter record of `calcWallpaperAll` (wallpaper-logic.js
lines 37-43), after `parseFloat(...) || 0` coercion of every field. -/
structure WPParams where
  wallWidthM : ℚ
  wallHeightM : ℚ
  rollWidthM : ℚ
  rollLengthM : ℚ
  patternRepeatCm : ℚ
  rollPrice : ℚ
deriving DecidableEq

/-- The result record of `calcWallpaperAll` (lines 70-79). -/
structure WPResult where
  wallArea : ℚ
  totalStrips : ℤ
  stripsPerRoll : ℤ
  totalRolls : ℤ
  effectiveStripHeight : ℚ
  totalPurchasedArea : ℚ
  wastePercent : ℚ
  totalPrice : ℚ
deriving DecidableEq

/-- `calcWallArea` (lines 7-9). -/
def calcWallArea (width height : ℚ) : ℚ := width * height

/-- `calcEffectiveStripHeight` (lines 13-23): `0` when the wall height is
non-positive, otherwise the height plus a `0.80` margin exactly when the
pattern repeat is positive. -/
def calcEffectiveStripHeight (wallHeight patternRepeat : ℚ) : ℚ :=
  if wallHeight ≤ 0 then 0
  else wallHeight + (if 0 < patternRepeat then 4/5 else 0)

/-- `calcStripsPerRoll` (lines 26-34): `Math.floor(len / effH)`, guarded
by `effH <= 0`. -/
def calcStripsPerRoll (rollLength effectiveHeight : ℚ) : ℤ :=
  if effectiveHeight ≤ 0 then 0 else ⌊rollLength / effectiveHeight⌋

/-- The `totalStrips` local of `calcWallpaperAll` (line 49):
`rollWidth > 0 ? Math.ceil(wallWidth / rollWidth) : 0`. -/
def totalStripsOf (p : WPParams) : ℤ :=
  if 0 < p.rollWidthM then ⌈p.wallWidthM / p.rollWidthM⌉ else 0

/-- The `effectiveStripHeight` local (line 52). -/
def effStripHeightOf (p : WPParams) : ℚ :=
  calcEffectiveStripHeight p.wallHeightM p.patternRepeatCm

/-- The `stripsPerRoll` local (line 55). -/
def stripsPerRollOf (p : WPParams) : ℤ :=
  calcStripsPerRoll p.rollLengthM (effStripHeightOf p)

/-- The `totalRolls` local (line 58):
`stripsPerRoll > 0 ? Math.ceil(totalStrips / stripsPerRoll) : 0`. -/
def totalRollsOf (p : WPParams) : ℤ :=
  if 0 < stripsPerRollOf p then
    ⌈(totalStripsOf p : ℚ) / (stripsPerRollOf p : ℚ)⌉
  else 0

/-- The `totalPurchasedArea` local (line 61):
`totalRolls * (rollWidth * rollLength)`. -/
def totalPurchasedAreaOf (p : WPParams) : ℚ :=
  (totalRollsOf p : ℚ) * (p.rollWidthM * p.rollLengthM)

/-- `calcWallpaperAll` (wallpaper-logic.js lines 37-80). -/
def calcWallpaperAll (p : WPParams) : WPResult :=
  let wallArea := calcWallArea p.wallWidthM p.wallHeightM
  let wastePercent :=
    if 0 < totalPurchasedAreaOf p then
      (totalPurchasedAreaOf p - wallArea) / totalPurchasedAreaOf p * 100
    else 0
  { wallArea := wallArea
    totalStrips := totalStripsOf p
    stripsPerRoll := stripsPerRollOf p
    totalRolls := totalRollsOf p
    effectiveStripHeight := effStripHeightOf p
    totalPurchasedArea := totalPurchasedAreaOf p
    wastePercent := wastePercent
    totalPrice := (totalRollsOf p : ℚ) * p.rollPrice }

/-- The reference chain of the wallpaper specification, stated in the
spec's own words with the one correction the code forces: the effective
strip height is `0` for a non-positive wall height (the code's
`h <= 0` guard), and otherwise `wallHeightM + 0.80` when
`patternRepeatCm > 0`, else `wallHeightM`. -/
def wpSpecChain (p : WPParams) : WPResult :=
  let wallArea := p.wallWidthM * p.wallHeightM
  let totalStrips : ℤ :=
    if 0 < p.rollWidthM then ⌈p.wallWidthM / p.rollWidthM⌉ else 0
  let effH : ℚ :=
    if p.wallHeightM ≤ 0 then 0
    else if 0 < p.patternRepeatCm then p.wallHeightM + 4/5 else p.wallHeightM
  let stripsPerRoll : ℤ := if 0 < effH then ⌊p.rollLengthM / effH⌋ else 0
  let totalRolls : ℤ :=
    if 0 < stripsPerRoll then ⌈(totalStrips : ℚ) / (stripsPerRoll : ℚ)⌉ else 0
  let totalPurchasedArea := (totalRolls : ℚ) * p.rollWidthM * p.rollLengthM
  let wastePercent :=
    if 0 < totalPurchasedArea then
      (totalPurchasedArea - wallArea) / totalPurchasedArea * 100
    else 0
  { wallArea := wallArea
    totalStrips := totalStrips
    stripsPerRoll := stripsPerRoll
    totalRolls := totalRolls
    effectiveStripHeight := effH
    totalPurchasedArea := totalPurchasedArea
    wastePercent := wastePercent
    totalPrice := (totalRolls : ℚ) * p.rollPrice }

end WallpaperLogic

namespace App

open TileLogic

/-- An opening as held in `state.openings` (app.js): dimensions, owning
wall index and local position. -/
structure AppOpening where
  id : ℕ
  width : ℚ
  height : ℚ
  wallIndex : ℕ
  x : ℚ
  y : ℚ
deriving DecidableEq

/-- The material inputs `runCalculation` reads from the form. -/
structure TileConfig where
  tileLengthCm : ℚ
  tileWidthCm : ℚ
  wastePercent : Option ℚ
  sqmPerBox : ℚ

/-- The openings parameter `runCalculation` builds (app.js lines
888-890): every element of `state.openings`, projected to
`{width, height}` — the wall index and position are dropped. -/
def openingsParamOf (openings : List AppOpening) : List Opening :=
  openings.map (fun o => ⟨o.width, o.height⟩)

/-- The parameter record `runCalculation` passes to
`TileLogic.calculateAll` in detailed mode (app.js lines 873-896): walls
filtered to positive dimensions, all openings included. -/
def tileParamsOf (walls : List Wall) (openings : List AppOpening)
    (cfg : TileConfig) : TileParams :=
  { walls := walls.filter (fun w => decide (0 < w.w ∧ 0 < w.h))
    openings := openingsParamOf openings
    tileLengthCm := cfg.tileLengthCm
    tileWidthCm := cfg.tileWidthCm
    wastePercent := cfg.wastePercent
    sqmPerBox := cfg.sqmPerBox }

/-- The draw-time scale of `drawWallPanel` (app.js lines 446-451):
`min((PW − 2·40)/W, (PH − 2·40 − 30)/H)` with `PAD = 40`, `LABEL = 30`. -/
def drawScale (PW PH W H : ℚ) : ℚ :=
  min ((PW - 40 * 2) / W) ((PH - 40 * 2 - 30) / H)

/-- Draw-time horizontal origin (line 455): `(PW − W·scale)/2`. -/
def drawOx (PW W scale : ℚ) : ℚ := (PW - W * scale) / 2

/-- Draw-time vertical origin (line 456): `LABEL + (PH − LABEL − H·scale)/2`. -/
def drawOy (PH H scale : ℚ) : ℚ := 30 + (PH - 30 - H * scale) / 2

/-- The hit-test/drag scale (app.js lines 1311-1314 and 1365-1368):
identical constants, but dividing by `wall.w || 1` and `wall.h || 1`. -/
def hitScale (PW PH W H : ℚ) : ℚ :=
  min ((PW - 40 * 2) / jsOr W 1) ((PH - 40 * 2 - 30) / jsOr H 1)

/-- Hit-test horizontal origin (lines 1315, 1369): `(PW − (wall.w||0)·scale)/2`. -/
def hitOx (PW W scale : ℚ) : ℚ := (PW - jsOr W 0 * scale) / 2

/-- Hit-test vertical origin (lines 1316, 1370). -/
def hitOy (PH H scale : ℚ) : ℚ := 30 + (PH - 30 - jsOr H 0 * scale) / 2

/-- The forward map applied to an opening coordinate at draw/hit-test
time (lines 1322-1323): `px = origin + meters · scale`. -/
def forwardPx (origin scale m : ℚ) : ℚ := origin + m * scale

/-- The pointer inverse used by the drag handlers (lines 1372-1373):
`meters = (px − origin) / scale`. -/
def inversePx (origin scale px : ℚ) : ℚ := (px - origin) / scale

/-- The mousemove clamp (app.js lines 1374-1375) on one axis:
`Math.max(0, Math.min(new, wallDim − openingDim))`. -/
def dragClamp (newPos wallDim openingDim : ℚ) : ℚ :=
  max 0 (min newPos (wallDim - openingDim))

/-- The full new x-position a mousemove computes (lines 1372-1375):
pointer inverse, minus the grab offset, then clamped. -/
def dragMoveX (mx ox scale startX wallW opW : ℚ) : ℚ :=
  dragClamp (inversePx ox scale mx - startX) wallW opW

end App

/-! ### Helper lemmas -/

namespace TileLogic

theorem jsMod1_eq_fract (q : ℚ) (h : 0 ≤ q) : jsMod1 q = Int.fract q := by
  rw [jsMod1, if_pos h, Int.self_sub_floor]

theorem axisFinal_def (c : ℚ) :
    axisFinal c =
      if jsMod1 c = 0 then c
      else if (1 : ℚ)/2 < jsMod1 c then (⌈c⌉ : ℚ) else (⌊c⌋ : ℚ) + 1/2 := by
  rw [axisFinal]

theorem axisFinal_eq_spec (c : ℚ) (h : 0 ≤ c) : axisFinal c = axisHalfUpSpec c := by
  rw [axisFinal_def, axisHalfUpSpec, jsMod1_eq_fract c h]

/-- For a nonnegative axis count the rounded value lies in
`[count, count + 1/2)`. -/
theorem axisFinal_bounds (c : ℚ) (h : 0 ≤ c) :
    c ≤ axisFinal c ∧ axisFinal c < c + 1/2 := by
  rw [axisFinal_def, jsMod1_eq_fract c h]
  have hfr : (⌊c⌋ : ℚ) = c - Int.fract c := by
    rw [← Int.self_sub_floor]; ring
  rcases eq_or_ne (Int.fract c) 0 with h0 | h0
  · rw [if_pos h0]
    constructor
    · exact le_refl c
    · linarith
  · rw [if_neg h0]
    have hf0 : 0 < Int.fract c := lt_of_le_of_ne (Int.fract_nonneg c) (Ne.symm h0)
    have hf1 : Int.fract c < 1 := Int.fract_lt_one c
    by_cases hh : (1 : ℚ)/2 < Int.fract c
    · rw [if_pos hh]
      have h1 : (⌈c⌉ : ℚ) ≤ (⌊c⌋ : ℚ) + 1 := by
        exact_mod_cast Int.ceil_le_floor_add_one c
      have h2 : c ≤ (⌈c⌉ : ℚ) := Int.le_ceil c
      constructor
      · exact h2
      · linarith
    · rw [if_neg hh]
      push_neg at hh
      constructor
      · linarith
      · linarith

theorem axisFinal_pos (c : ℚ) (h : 0 < c) : 0 < axisFinal c :=
  lt_of_lt_of_le h (axisFinal_bounds c h.le).1

theorem wallContribution_nonneg (tLenM tWidM : ℚ)
    (htL : 0 < tLenM) (htW : 0 < tWidM) (wall : Wall) :
    0 ≤ wallContribution tLenM tWidM wall := by
  rw [wallContribution]
  by_cases hwall : 0 < wall.w ∧ 0 < wall.h
  · rw [if_pos hwall]
    exact mul_nonneg (axisFinal_pos _ (div_pos hwall.1 htL)).le
      (axisFinal_pos _ (div_pos hwall.2 htW)).le
  · rw [if_neg hwall]

theorem rawBaseCount_nonneg (p : TileParams)
    (htL : 0 < p.tileLengthCm) (htW : 0 < p.tileWidthCm) :
    0 ≤ rawBaseCount p := by
  refine List.sum_nonneg ?_
  intro x hx
  rcases List.mem_map.mp hx with ⟨wall, _, rfl⟩
  exact wallContribution_nonneg _ _ (by positivity) (by positivity) wall

theorem adjustedBaseCount_nonneg (p : TileParams)
    (htL : 0 < p.tileLengthCm) (htW : 0 < p.tileWidthCm) :
    0 ≤ adjustedBaseCount p := by
  rw [adjustedBaseCount]
  by_cases hcond : 0 < grossAreaOf p ∧ 0 < calcTotalDeduction p.openings
  · rw [if_pos hcond]; exact le_max_left _ _
  · rw [if_neg hcond]; exact rawBaseCount_nonneg p htL htW

theorem foldl_add_area (l : List Opening) (a : ℚ) :
    l.foldl (fun sum op => sum + op.width * op.height) a =
      a + (l.map (fun op => op.width * op.height)).sum := by
  induction l generalizing a with
  | nil => simp
  | cons x xs ih =>
    simp only [List.foldl_cons, List.map_cons, List.sum_cons, ih, add_assoc]

theorem calcTotalDeduction_eq_sum (l : List Opening) :
    calcTotalDeduction l = (l.map (fun op => op.width * op.height)).sum := by
  rw [calcTotalDeduction, foldl_add_area, zero_add]

end TileLogic

namespace WallpaperLogic

theorem calcEffectiveStripHeight_cases (h r : ℚ) :
    calcEffectiveStripHeight h r =
      if h ≤ 0 then 0 else if 0 < r then h + 4/5 else h := by
  rw [calcEffectiveStripHeight]
  rcases le_or_lt h 0 with hh | hh
  · simp [hh]
  · rcases lt_or_le 0 r with hr | hr
    · simp [not_le.mpr hh, hr]
    · simp [not_le.mpr hh, not_lt.mpr hr]

theorem calcStripsPerRoll_cases (len effH : ℚ) :
    calcStripsPerRoll len effH = if 0 < effH then ⌊len / effH⌋ else 0 := by
  rw [calcStripsPerRoll]
  rcases le_or_lt effH 0 with hh | hh
  · simp [hh, not_lt.mpr hh]
  · simp [not_le.mpr hh, hh]

theorem effStripHeightOf_ge (p : WPParams) :
    0 < effStripHeightOf p → p.wallHeightM ≤ effStripHeightOf p := by
  rw [effStripHeightOf, calcEffectiveStripHeight]
  rcases le_or_lt p.wallHeightM 0 with hh | hh
  · rw [if_pos hh]; intro h0; linarith
  · rw [if_neg (not_le.mpr hh)]
    intro _
    rcases lt_or_le 0 p.patternRepeatCm with hr | hr
    · rw [if_pos hr]; linarith
    · rw [if_neg (not_lt.mpr hr)]; linarith

theorem effStripHeightOf_pos_wall (p : WPParams) :
    0 < effStripHeightOf p → 0 < p.wallHeightM := by
  rw [effStripHeightOf, calcEffectiveStripHeight]
  rcases le_or_lt p.wallHeightM 0 with hh | hh
  · rw [if_pos hh]; intro h0; exact absurd h0 (lt_irrefl 0)
  · intro _; exact hh

end WallpaperLogic

/-! ### Claim theorems -/

namespace TileLogic

/-- The spec's worked tile scenario: two 3.00 m × 2.50 m walls,
60 cm × 30 cm tiles, no openings, 10 % waste. -/
def twoWallScenario : TileParams :=
  ⟨[⟨3, 5/2⟩, ⟨3, 5/2⟩], [], 60, 30, some 10, 0⟩

/-- C1: for a wall with positive width and height, `calculateAll`'s
per-wall contribution to `totalBaseCount` is the product of the two
per-axis half-up results (`frac = 0` keeps the count, `frac > 0.5`
rounds up, `0 < frac ≤ 0.5` gives `floor + 0.5`); in the concrete
scenario each 3.00 m × 2.50 m wall with 60 cm × 30 cm tiles contributes
42.5, two such walls give `totalBaseCount = 85`, and 10 % waste gives
`finalCount = ceil(85 × 1.1) = 94`. -/
theorem claim1_per_axis_half_up (W H tL tW : ℚ)
    (hW : 0 < W) (hH : 0 < H) (htL : 0 < tL) (htW : 0 < tW) :
    wallContribution tL tW ⟨W, H⟩ = axisHalfUpSpec (W / tL) * axisHalfUpSpec (H / tW)
    ∧ wallContribution (3/5) (3/10) ⟨3, 5/2⟩ = 85/2
    ∧ (calculateAll twoWallScenario).baseCount = 85
    ∧ (calculateAll twoWallScenario).finalCount = 94 := by
  refine ⟨?_, ?_, ?_, ?_⟩
  · rw [wallContribution]
    have hc : 0 < (Wall.mk W H).w ∧ 0 < (Wall.mk W H).h := ⟨hW, hH⟩
    rw [if_pos hc]
    rw [axisFinal_eq_spec _ (div_pos hW htL).le, axisFinal_eq_spec _ (div_pos hH htW).le]
  · norm_num [wallContribution, axisFinal, jsMod1, Int.floor_eq_iff, Int.ceil_eq_iff]
  · norm_num [twoWallScenario, calculateAll, adjustedBaseCount, rawBaseCount,
      grossAreaOf, wallGross, wallContribution, axisFinal, jsMod1, wasteOf,
      calcTotalDeduction, Int.floor_eq_iff, Int.ceil_eq_iff]
  · norm_num [twoWallScenario, calculateAll, adjustedBaseCount, rawBaseCount,
      grossAreaOf, wallGross, wallContribution, axisFinal, jsMod1, wasteOf,
      calcTotalDeduction, Int.floor_eq_iff, Int.ceil_eq_iff]

/-- Witness for C1 at the concrete wall 1 m × 1 m with 1 m tiles. -/
theorem claim1_witness :
    wallContribution 1 1 ⟨1, 1⟩ = axisHalfUpSpec (1 / 1) * axisHalfUpSpec (1 / 1)
    ∧ (calculateAll twoWallScenario).finalCount = 94 := by
  have h := claim1_per_axis_half_up 1 1 1 1 (by norm_num) (by norm_num)
    (by norm_num) (by norm_num)
  exact ⟨h.1, h.2.2.2⟩

end TileLogic

namespace WallpaperLogic

/-- The spec's worked wallpaper scenario: roll 0.53 m × 10.05 m, wall
4.00 m × 2.70 m, no pattern repeat. -/
def rollScenario : WPParams := ⟨4, 27/10, 53/100, 201/20, 0, 0⟩

/-- Counterexample to C2: at wall height 0 with a positive pattern
repeat, the claim's formula `effectiveStripHeightM = wallHeightM + 0.80`
predicts `0.8`, but `calcEffectiveStripHeight` returns `0` for any
non-positive wall height (the `h <= 0` guard the claim omits). -/
theorem claim2_counterexample :
    (calcWallpaperAll ⟨4, 0, 53/100, 201/20, 1, 0⟩).effectiveStripHeight ≠
      (⟨4, 0, 53/100, 201/20, 1, 0⟩ : WPParams).wallHeightM + 4/5 := by
  norm_num [calcWallpaperAll, effStripHeightOf, calcEffectiveStripHeight]

/-- C2 (amended): `calcWallpaperAll` returns exactly the reference chain
of the claim, with the effective strip height corrected to `0` when
`wallHeightM ≤ 0` (otherwise `wallHeightM + 0.80` when
`patternRepeatCm > 0`, else `wallHeightM`); and the concrete scenario
gives `totalStrips = 8`, `stripsPerRoll = 3`, `totalRolls = 3`. -/
theorem claim2_wallpaper_chain (p : WPParams) :
    calcWallpaperAll p = wpSpecChain p
    ∧ (calcWallpaperAll rollScenario).totalStrips = 8
    ∧ (calcWallpaperAll rollScenario).stripsPerRoll = 3
    ∧ (calcWallpaperAll rollScenario).totalRolls = 3 := by
  refine ⟨?_, ?_, ?_, ?_⟩
  · rw [calcWallpaperAll, wpSpecChain]
    simp only [calcWallArea, totalStripsOf, effStripHeightOf, stripsPerRollOf,
      totalRollsOf, totalPurchasedAreaOf, calcEffectiveStripHeight_cases,
      calcStripsPerRoll_cases, mul_assoc]
  · norm_num [calcWallpaperAll, rollScenario, totalStripsOf, Int.ceil_eq_iff]
  · norm_num [calcWallpaperAll, rollScenario, stripsPerRollOf, effStripHeightOf,
      totalStripsOf, calcStripsPerRoll, calcEffectiveStripHeight, Int.floor_eq_iff]
  · have h8 : ⌈(400 : ℚ)/53⌉ = (8 : ℤ) := by norm_num [Int.ceil_eq_iff]
    norm_num [calcWallpaperAll, rollScenario, totalRollsOf, stripsPerRollOf,
      effStripHeightOf, totalStripsOf, calcStripsPerRoll, calcEffectiveStripHeight,
      Int.floor_eq_iff, Int.ceil_eq_iff, h8]

end WallpaperLogic

namespace TileLogic

/-- C3: the opening deduction of `calculateAll` is area-proportional and
position-blind: `totalDeduction` is the sum of `width × height` over
every opening in the list; when both the gross area and the deduction
are positive, exactly `totalDeduction / (tileLengthM × tileWidthM)`
equivalent tiles are subtracted from `totalBaseCount` and the result is
floored at `0`; and `netArea = max(0, grossArea − totalDeduction)`. -/
theorem claim3_area_proportional_deduction (p : TileParams)
    (htL : 0 < p.tileLengthCm) (htW : 0 < p.tileWidthCm) :
    (calculateAll p).totalDeduction = (p.openings.map (fun op => op.width * op.height)).sum
    ∧ (calculateAll p).netArea =
        max 0 ((calculateAll p).grossArea - (calculateAll p).totalDeduction)
    ∧ (0 < (calculateAll p).grossArea → 0 < (calculateAll p).totalDeduction →
        (calculateAll p).baseCount =
          ⌈max 0 (rawBaseCount p - (calculateAll p).totalDeduction /
            (p.tileLengthCm / 100 * (p.tileWidthCm / 100)))⌉
        ∧ (calculateAll p).finalCount =
          ⌈max 0 (rawBaseCount p - (calculateAll p).totalDeduction /
            (p.tileLengthCm / 100 * (p.tileWidthCm / 100))) * (1 + wasteOf p / 100)⌉) := by
  refine ⟨calcTotalDeduction_eq_sum p.openings, rfl, ?_⟩
  intro hg hd
  have hcond : 0 < grossAreaOf p ∧ 0 < calcTotalDeduction p.openings := ⟨hg, hd⟩
  constructor
  · show ⌈adjustedBaseCount p⌉ = _
    rw [adjustedBaseCount, if_pos hcond]
    rfl
  · show ⌈adjustedBaseCount p * _⌉ = _
    rw [adjustedBaseCount, if_pos hcond]
    rfl

/-- The input for the C3 witness: one 3.00 m × 2.50 m wall, one
1 m × 2 m opening, 60 cm × 30 cm tiles. -/
def oneOpeningScenario : TileParams := ⟨[⟨3, 5/2⟩], [⟨1, 2⟩], 60, 30, some 0, 0⟩

/-- Witness for C3 at a concrete input with a positive deduction. -/
theorem claim3_witness :
    (calculateAll oneOpeningScenario).totalDeduction =
      (oneOpeningScenario.openings.map (fun op => op.width * op.height)).sum
    ∧ (calculateAll oneOpeningScenario).baseCount =
        ⌈max 0 (rawBaseCount oneOpeningScenario -
          (calculateAll oneOpeningScenario).totalDeduction /
          (oneOpeningScenario.tileLengthCm / 100 *
            (oneOpeningScenario.tileWidthCm / 100)))⌉ := by
  have h := claim3_area_proportional_deduction oneOpeningScenario
    (by norm_num [oneOpeningScenario]) (by norm_num [oneOpeningScenario])
  refine ⟨h.1, ?_⟩
  have hg : 0 < (calculateAll oneOpeningScenario).grossArea := by
    norm_num [oneOpeningScenario, calculateAll, grossAreaOf, wallGross]
  have hd : 0 < (calculateAll oneOpeningScenario).totalDeduction := by
    rw [show (calculateAll oneOpeningScenario).totalDeduction =
      calcTotalDeduction oneOpeningScenario.openings from rfl, calcTotalDeduction_eq_sum]
    norm_num [oneOpeningScenario]
  exact (h.2.2 hg hd).1

/-- One positive wall measured with a negative tile length: the per-axis
counts go negative and `totalBaseCount = -42.5`. -/
def negTileScenario : TileParams := ⟨[⟨3, 5/2⟩], [], -60, 30, some 10, 0⟩

/-- Counterexample to C4: the claim quantifies over every input with
`wastePercent ≥ 0`, but with a negative tile length `totalBaseCount` is
negative and applying 10 % waste makes `finalCount = -46` strictly
smaller than `ceil(baseCount) = -42`. -/
theorem claim4_counterexample :
    (0 : ℚ) ≤ wasteOf negTileScenario
    ∧ (calculateAll negTileScenario).finalCount < (calculateAll negTileScenario).baseCount := by
  constructor
  · norm_num [wasteOf, negTileScenario]
  · have hc5 : ⌈(-5 : ℚ)⌉ = (-5 : ℤ) := by norm_num [Int.ceil_eq_iff]
    have hca : ⌈-((187 : ℚ) / 4)⌉ = (-46 : ℤ) := by norm_num [Int.ceil_eq_iff]
    have hcb : ⌈-((85 : ℚ) / 2)⌉ = (-42 : ℤ) := by norm_num [Int.ceil_eq_iff]
    norm_num [negTileScenario, calculateAll, adjustedBaseCount, rawBaseCount,
      grossAreaOf, wallGross, wallContribution, axisFinal, jsMod1, wasteOf,
      calcTotalDeduction, hc5, hca, hcb]

/-- Replace the waste parameter of a `TileParams` record. -/
def withWaste (p : TileParams) (w : Option ℚ) : TileParams :=
  ⟨p.walls, p.openings, p.tileLengthCm, p.tileWidthCm, w, p.sqmPerBox⟩

/-- C4 (amended): for every input with `wastePercent ≥ 0` and positive
tile dimensions, `finalCount = ceil(totalBaseCount × (1+waste/100)) ≥
ceil(baseCount)`, with equality at `wastePercent = 0`; and an explicit
waste of `0` yields exactly the same result record as an absent waste
parameter. -/
theorem claim4_waste_bound (p : TileParams)
    (hw : 0 ≤ wasteOf p) (htL : 0 < p.tileLengthCm) (htW : 0 < p.tileWidthCm) :
    (calculateAll p).baseCount ≤ (calculateAll p).finalCount
    ∧ (wasteOf p = 0 → (calculateAll p).finalCount = (calculateAll p).baseCount)
    ∧ calculateAll (withWaste p (some 0)) = calculateAll (withWaste p none) := by
  have hb : 0 ≤ adjustedBaseCount p := adjustedBaseCount_nonneg p htL htW
  refine ⟨?_, ?_, rfl⟩
  · show ⌈adjustedBaseCount p⌉ ≤ ⌈adjustedBaseCount p * (1 + wasteOf p / 100)⌉
    apply Int.ceil_le_ceil
    nlinarith
  · intro h0
    show ⌈adjustedBaseCount p * (1 + wasteOf p / 100)⌉ = ⌈adjustedBaseCount p⌉
    rw [h0]
    norm_num

/-- Witness for C4 at the two-wall scenario (waste 10 %). -/
theorem claim4_witness :
    (calculateAll twoWallScenario).baseCount ≤ (calculateAll twoWallScenario).finalCount
    ∧ calculateAll (withWaste twoWallScenario (some 0)) =
        calculateAll (withWaste twoWallScenario none) := by
  have h := claim4_waste_bound twoWallScenario
    (by norm_num [wasteOf, twoWallScenario])
    (by norm_num [twoWallScenario]) (by norm_num [twoWallScenario])
  exact ⟨h.1, h.2.2⟩

/-- Counterexample to C5: a 2.2 m × 2.2 m wall with 1 m × 1 m tiles has
per-axis counts 2.2, rounded to 2.5 each, so the wall contributes
6.25 tiles — more than `(W/tL)×(H/tW) + 1 = 5.84`. -/
theorem claim5_counterexample :
    (0 : ℚ) < 11/5 ∧ (0 : ℚ) < 1
    ∧ ¬ (wallContribution 1 1 ⟨11/5, 11/5⟩ ≤ (11/5 : ℚ) / 1 * ((11/5 : ℚ) / 1) + 1) := by
  refine ⟨by norm_num, by norm_num, ?_⟩
  have hf : ⌊(11 : ℚ)/5⌋ = (2 : ℤ) := by norm_num [Int.floor_eq_iff]
  norm_num [wallContribution, axisFinal, jsMod1, hf]

/-- C5 (amended): for positive wall and tile dimensions the per-wall
count lies in `[(W/tL)×(H/tW) − 1, (W/tL + 0.5)×(H/tW + 0.5))`: the
claimed lower bound holds, but the upper bound is
`(W/tL + 0.5)×(H/tW + 0.5)`, not `(W/tL)×(H/tW) + 1`, because each axis
may be rounded up by just under half a tile. -/
theorem claim5_wall_count_bounds (W H tL tW : ℚ)
    (hW : 0 < W) (hH : 0 < H) (htL : 0 < tL) (htW : 0 < tW) :
    W / tL * (H / tW) - 1 ≤ wallContribution tL tW ⟨W, H⟩
    ∧ wallContribution tL tW ⟨W, H⟩ < (W / tL + 1/2) * (H / tW + 1/2) := by
  have hx0 : 0 < W / tL := div_pos hW htL
  have hy0 : 0 < H / tW := div_pos hH htW
  have hx := axisFinal_bounds (W / tL) hx0.le
  have hy := axisFinal_bounds (H / tW) hy0.le
  have hc : 0 < (Wall.mk W H).w ∧ 0 < (Wall.mk W H).h := ⟨hW, hH⟩
  rw [wallContribution, if_pos hc]
  show W / tL * (H / tW) - 1 ≤ axisFinal (W / tL) * axisFinal (H / tW)
    ∧ axisFinal (W / tL) * axisFinal (H / tW) < (W / tL + 1/2) * (H / tW + 1/2)
  constructor
  · have hxy : W / tL * (H / tW) ≤ axisFinal (W / tL) * axisFinal (H / tW) :=
      mul_le_mul hx.1 hy.1 hy0.le (le_trans hx0.le hx.1)
    linarith
  · have h1 : axisFinal (W / tL) * axisFinal (H / tW) <
        axisFinal (W / tL) * (H / tW + 1/2) :=
      mul_lt_mul_of_pos_left hy.2 (lt_of_lt_of_le hx0 hx.1)
    have h2 : axisFinal (W / tL) * (H / tW + 1/2) ≤
        (W / tL + 1/2) * (H / tW + 1/2) :=
      mul_le_mul_of_nonneg_right hx.2.le (by linarith)
    linarith

/-- Witness for C5 at a 1 m × 1 m wall with 1 m × 1 m tiles. -/
theorem claim5_witness :
    (1 : ℚ) / 1 * ((1 : ℚ) / 1) - 1 ≤ wallContribution 1 1 ⟨1, 1⟩
    ∧ wallContribution 1 1 ⟨1, 1⟩ < ((1 : ℚ) / 1 + 1/2) * ((1 : ℚ) / 1 + 1/2) :=
  claim5_wall_count_bounds 1 1 1 1 (by norm_num) (by norm_num) (by norm_num) (by norm_num)

/-- A positive wall with both tile dimensions negative. -/
def negBothTileScenario : TileParams := ⟨[⟨3, 5/2⟩], [], -60, -50, none, 0⟩

/-- Counterexample to C6: with tile dimensions −60 cm × −50 cm a
3.00 m × 2.50 m wall contributes `(-5) × (-5) = 25`, not `0`, and the
returned `finalCount` is `25`, not a zero-valued count field. -/
theorem claim6_counterexample :
    wallContribution (-60/100) (-50/100) ⟨3, 5/2⟩ ≠ 0
    ∧ (calculateAll negBothTileScenario).finalCount ≠ 0 := by
  have hc5 : ⌈(-5 : ℚ)⌉ = (-5 : ℤ) := by norm_num [Int.ceil_eq_iff]
  have hc25 : ⌈(25 : ℚ)⌉ = (25 : ℤ) := by norm_num [Int.ceil_eq_iff]
  constructor
  · norm_num [wallContribution, axisFinal, jsMod1, hc5]
  · norm_num [negBothTileScenario, calculateAll, adjustedBaseCount, rawBaseCount,
      grossAreaOf, wallGross, wallContribution, axisFinal, jsMod1, wasteOf,
      calcTotalDeduction, hc5, hc25]

/-- C6 (amended): `calculateAll`'s guard is on the wall dimensions, not
the tile dimensions: a wall with non-positive width or height
contributes `0` for any tile dimensions, and when no wall has positive
dimensions every count field of the result is `0`; zero or negative
tile dimensions are not guarded and can make positive walls contribute
nonzero counts. -/
theorem claim6_wall_guard (tLenM tWidM : ℚ) (wall : Wall) (p : TileParams)
    (hwall : ¬ (0 < wall.w ∧ 0 < wall.h))
    (hall : ∀ w ∈ p.walls, ¬ (0 < w.w ∧ 0 < w.h)) :
    wallContribution tLenM tWidM wall = 0
    ∧ (calculateAll p).baseCount = 0
    ∧ (calculateAll p).finalCount = 0
    ∧ (calculateAll p).boxCount = 0
    ∧ (calculateAll p).wasteTiles = 0 := by
  have hraw : rawBaseCount p = 0 := by
    rw [rawBaseCount]
    apply List.sum_eq_zero
    intro x hx
    rcases List.mem_map.mp hx with ⟨w, hw, rfl⟩
    rw [wallContribution, if_neg (hall w hw)]
  have hgross : grossAreaOf p = 0 := by
    rw [grossAreaOf]
    apply List.sum_eq_zero
    intro x hx
    rcases List.mem_map.mp hx with ⟨w, hw, rfl⟩
    rw [wallGross, if_neg (hall w hw)]
  have hadj : adjustedBaseCount p = 0 := by
    rw [adjustedBaseCount, if_neg, hraw]
    intro hcond
    rw [hgross] at hcond
    exact lt_irrefl 0 hcond.1
  have hfinal : (calculateAll p).finalCount = 0 := by
    show ⌈adjustedBaseCount p * (1 + wasteOf p / 100)⌉ = 0
    rw [hadj, zero_mul, Int.ceil_zero]
  refine ⟨by rw [wallContribution, if_neg hwall], ?_, hfinal, ?_, ?_⟩
  · show ⌈adjustedBaseCount p⌉ = 0
    rw [hadj, Int.ceil_zero]
  · show (if 0 < p.sqmPerBox then
        ⌈((⌈adjustedBaseCount p * (1 + wasteOf p / 100)⌉ : ℚ) *
          (p.tileLengthCm / 100 * (p.tileWidthCm / 100))) / p.sqmPerBox⌉ else 0) = 0
    rw [hadj, zero_mul, Int.ceil_zero]
    split_ifs with h
    · norm_num
    · rfl
  · show ⌈adjustedBaseCount p * (1 + wasteOf p / 100)⌉ - ⌈adjustedBaseCount p⌉ = 0
    rw [hadj, zero_mul, Int.ceil_zero]
    norm_num

/-- A wall list whose only wall has zero width. -/
def degenerateWallScenario : TileParams := ⟨[⟨0, 2⟩], [], 60, 30, none, 0⟩

/-- Witness for C6 (amended) on a zero-width wall. -/
theorem claim6_witness :
    wallContribution 1 1 ⟨0, 2⟩ = 0
    ∧ (calculateAll degenerateWallScenario).finalCount = 0 := by
  have h := claim6_wall_guard 1 1 ⟨0, 2⟩ degenerateWallScenario
    (by norm_num) ?_
  · exact ⟨h.1, h.2.2.1⟩
  · intro w hw
    rcases List.mem_singleton.mp hw with rfl
    norm_num

end TileLogic

namespace App

open TileLogic

/-- C7: for a wall with positive dimensions, the mousedown/mousemove
hit-test recomputes exactly the draw-time scale and origins of
`drawWallPanel` (same `PAD = 40` and `LABEL = 30` constants), and on a
canvas larger than the reserved padding the pointer inverse
`(px − origin)/scale` is the exact algebraic inverse of the forward map
`origin + m·scale`, so `inverse(forward(m)) = m` for every coordinate. -/
theorem claim7_geometry_mapping (PW PH W H : ℚ) (hW : 0 < W) (hH : 0 < H) :
    (hitScale PW PH W H = drawScale PW PH W H
      ∧ ∀ s : ℚ, hitOx PW W s = drawOx PW W s ∧ hitOy PH H s = drawOy PH H s)
    ∧ (80 < PW → 110 < PH →
        0 < drawScale PW PH W H
        ∧ ∀ origin m : ℚ,
            inversePx origin (drawScale PW PH W H)
              (forwardPx origin (drawScale PW PH W H) m) = m) := by
  constructor
  · constructor
    · rw [hitScale, drawScale, jsOr, if_neg hW.ne', jsOr, if_neg hH.ne']
    · intro s
      constructor
      · rw [hitOx, drawOx, jsOr, if_neg hW.ne']
      · rw [hitOy, drawOy, jsOr, if_neg hH.ne']
  · intro hPW hPH
    have hs : 0 < drawScale PW PH W H := by
      rw [drawScale]
      exact lt_min (div_pos (by linarith) hW) (div_pos (by linarith) hH)
    refine ⟨hs, ?_⟩
    intro origin m
    rw [forwardPx, inversePx, add_sub_cancel_left, mul_div_assoc, div_self hs.ne', mul_one]

/-- Witness for C7 on a 300 × 200 canvas and a 2 m × 1 m wall. -/
theorem claim7_witness :
    hitScale 300 200 2 1 = drawScale 300 200 2 1
    ∧ 0 < drawScale 300 200 2 1
    ∧ inversePx 5 (drawScale 300 200 2 1) (forwardPx 5 (drawScale 300 200 2 1) 7) = 7 := by
  have h := claim7_geometry_mapping 300 200 2 1 (by norm_num) (by norm_num)
  have h2 := h.2 (by norm_num) (by norm_num)
  exact ⟨h.1.1, h2.1, h2.2 5 7⟩

/-- Counterexample to C8: an opening 3 m wide dragged on a 2 m wall is
clamped to `x = 0`, which violates the claimed invariant
`x ≤ wallWidth − openingWidth = −1`. -/
theorem claim8_counterexample :
    ¬ (dragMoveX 100 0 1 0 2 3 ≤ 2 - 3) := by
  norm_num [dragMoveX, dragClamp, inversePx, min_def, max_def]

/-- C8 (amended): after any drag move the stored coordinate is
`max(0, min(new, wallDim − openingDim))`, hence always `≥ 0` and
`≤ max(0, wallDim − openingDim)`; the claimed two-sided bound
`0 ≤ x ≤ wallDim − openingDim` holds exactly when the opening fits,
i.e. when `openingDim ≤ wallDim`. -/
theorem claim8_drag_clamp (mx ox scale startX wallW opW : ℚ) :
    0 ≤ dragMoveX mx ox scale startX wallW opW
    ∧ dragMoveX mx ox scale startX wallW opW ≤ max 0 (wallW - opW)
    ∧ (opW ≤ wallW → dragMoveX mx ox scale startX wallW opW ≤ wallW - opW) := by
  rw [dragMoveX, dragClamp]
  refine ⟨le_max_left _ _, ?_, ?_⟩
  · exact max_le (le_max_left _ _) (le_trans (min_le_right _ _) (le_max_right _ _))
  · intro h
    exact max_le (by linarith) (min_le_right _ _)

/-- Witness for C8 (amended): an opening that fits stays inside
`[0, wallDim − openingDim]`. -/
theorem claim8_witness :
    0 ≤ dragMoveX 10 0 1 0 5 2 ∧ dragMoveX 10 0 1 0 5 2 ≤ 5 - 2 := by
  have h := claim8_drag_clamp 10 0 1 0 5 2
  exact ⟨h.1, h.2.2 (by norm_num)⟩

/-- An opening whose `wallIndex` (5) resolves to no wall of a one-wall
list. -/
def orphanOpening : AppOpening := ⟨0, 2, 1, 5, 0, 0⟩

/-- The tile form inputs used in the orphan scenario. -/
def orphanConfig : TileConfig := ⟨60, 30, some 0, 1⟩

/-- Counterexample to C9: `runCalculation` passes every element of
`state.openings` to the engine, so an opening whose `wallIndex` resolves
to no wall still contributes its area (2 m²) to `totalDeduction` and
changes `finalCount` (32 with the orphan vs 43 without). -/
theorem claim9_counterexample :
    (calculateAll (tileParamsOf [⟨3, 5/2⟩] [orphanOpening] orphanConfig)).totalDeduction ≠ 0
    ∧ (calculateAll (tileParamsOf [⟨3, 5/2⟩] [orphanOpening] orphanConfig)).finalCount ≠
        (calculateAll (tileParamsOf [⟨3, 5/2⟩] [] orphanConfig)).finalCount := by
  have hfilter : ([⟨3, 5/2⟩] : List Wall).filter
      (fun w => decide (0 < w.w ∧ 0 < w.h)) = [⟨3, 5/2⟩] := by
    norm_num [List.filter_cons]
  have hflr : ⌊(25 : ℚ)/3⌋ = (8 : ℤ) := by norm_num [Int.floor_eq_iff]
  have hc32 : ⌈(565 : ℚ)/18⌉ = (32 : ℤ) := by norm_num [Int.ceil_eq_iff]
  have hc43 : ⌈(85 : ℚ)/2⌉ = (43 : ℤ) := by norm_num [Int.ceil_eq_iff]
  constructor
  · norm_num [tileParamsOf, openingsParamOf, orphanOpening, orphanConfig,
      calculateAll, calcTotalDeduction]
  · norm_num [tileParamsOf, openingsParamOf, orphanOpening, orphanConfig, hfilter,
      calculateAll, adjustedBaseCount, rawBaseCount, grossAreaOf, wallGross,
      wallContribution, axisFinal, jsMod1, wasteOf, calcTotalDeduction,
      hflr, hc32, hc43]

/-- C9 (amended): the estimation is total and wall-assignment-blind:
re-assigning every opening's `wallIndex` arbitrarily (in particular,
orphaning it) leaves the whole result unchanged, and `totalDeduction`
is the area sum over all openings including orphaned ones — orphans are
not excluded. -/
theorem claim9_orphan_openings (walls : List Wall) (openings : List AppOpening)
    (cfg : TileConfig) (f : AppOpening → ℕ) :
    calculateAll (tileParamsOf walls
        (openings.map (fun o => ⟨o.id, o.width, o.height, f o, o.x, o.y⟩)) cfg)
      = calculateAll (tileParamsOf walls openings cfg)
    ∧ (calculateAll (tileParamsOf walls openings cfg)).totalDeduction
      = (openings.map (fun o => o.width * o.height)).sum := by
  have hmap : openingsParamOf
      (openings.map (fun o => ⟨o.id, o.width, o.height, f o, o.x, o.y⟩)) =
      openingsParamOf openings := by
    rw [openingsParamOf, openingsParamOf, List.map_map]
    rfl
  constructor
  · have hparams : tileParamsOf walls
        (openings.map (fun o => ⟨o.id, o.width, o.height, f o, o.x, o.y⟩)) cfg =
        tileParamsOf walls openings cfg := by
      rw [tileParamsOf, tileParamsOf, hmap]
    rw [hparams]
  · rw [show (calculateAll (tileParamsOf walls openings cfg)).totalDeduction =
      calcTotalDeduction (openingsParamOf openings) from rfl,
      calcTotalDeduction_eq_sum, openingsParamOf, List.map_map]
    rfl

end App

namespace WallpaperLogic

/-- When at least one roll is purchased, the purchased area dominates the
wall area, and both wall dimensions are positive. -/
theorem purchase_dominates (p : WPParams)
    (hww : 0 ≤ p.wallWidthM) (hrw : 0 ≤ p.rollWidthM) (hrl : 0 ≤ p.rollLengthM)
    (hR : 0 < totalRollsOf p) :
    p.wallWidthM * p.wallHeightM ≤ totalPurchasedAreaOf p
    ∧ 0 < p.wallWidthM ∧ 0 < p.wallHeightM := by
  have hspr : 0 < stripsPerRollOf p := by
    by_contra h
    rw [totalRollsOf, if_neg h] at hR
    exact lt_irrefl 0 hR
  have heff : 0 < effStripHeightOf p := by
    by_contra h
    push_neg at h
    rw [stripsPerRollOf, calcStripsPerRoll, if_pos h] at hspr
    exact lt_irrefl 0 hspr
  have hwh0 : 0 < p.wallHeightM := effStripHeightOf_pos_wall p heff
  have heffwh : p.wallHeightM ≤ effStripHeightOf p := effStripHeightOf_ge p heff
  have hPq : (0 : ℚ) < (stripsPerRollOf p : ℚ) := by exact_mod_cast hspr
  have hfP : (stripsPerRollOf p : ℚ) ≤ p.rollLengthM / effStripHeightOf p := by
    rw [stripsPerRollOf, calcStripsPerRoll, if_neg (not_le.mpr heff)]
    exact_mod_cast Int.floor_le _
  have hPeff : (stripsPerRollOf p : ℚ) * effStripHeightOf p ≤ p.rollLengthM :=
    (le_div_iff₀ heff).mp hfP
  have hRdef : totalRollsOf p = ⌈(totalStripsOf p : ℚ) / (stripsPerRollOf p : ℚ)⌉ := by
    rw [totalRollsOf, if_pos hspr]
  have hSP : 0 < (totalStripsOf p : ℚ) / (stripsPerRollOf p : ℚ) := by
    apply Int.ceil_pos.mp
    rw [← hRdef]
    exact hR
  have hS0 : 0 < totalStripsOf p := by
    rcases div_pos_iff.mp hSP with ⟨hs, _⟩ | ⟨_, hp⟩
    · exact_mod_cast hs
    · exact absurd hPq (not_lt.mpr hp.le)
  have hrw0 : 0 < p.rollWidthM := by
    by_contra h
    rw [totalStripsOf, if_neg h] at hS0
    exact lt_irrefl 0 hS0
  have hSdef : totalStripsOf p = ⌈p.wallWidthM / p.rollWidthM⌉ := by
    rw [totalStripsOf, if_pos hrw0]
  have hww0 : 0 < p.wallWidthM := by
    have hq : 0 < p.wallWidthM / p.rollWidthM := by
      apply Int.ceil_pos.mp
      rw [← hSdef]
      exact hS0
    rcases div_pos_iff.mp hq with ⟨hs, _⟩ | ⟨_, hp⟩
    · exact hs
    · exact absurd hrw0 (not_lt.mpr hp.le)
  have hSq : p.wallWidthM / p.rollWidthM ≤ (totalStripsOf p : ℚ) := by
    rw [hSdef]
    exact_mod_cast Int.le_ceil _
  have hSrw : p.wallWidthM ≤ (totalStripsOf p : ℚ) * p.rollWidthM :=
    (div_le_iff₀ hrw0).mp hSq
  have hRP : (totalStripsOf p : ℚ) ≤ (totalRollsOf p : ℚ) * (stripsPerRollOf p : ℚ) := by
    have h1 : (totalStripsOf p : ℚ) / (stripsPerRollOf p : ℚ) ≤ (totalRollsOf p : ℚ) := by
      rw [hRdef]
      exact_mod_cast Int.le_ceil _
    exact (div_le_iff₀ hPq).mp h1
  have hR0q : (0 : ℚ) ≤ (totalRollsOf p : ℚ) := by exact_mod_cast hR.le
  refine ⟨?_, hww0, hwh0⟩
  rw [totalPurchasedAreaOf]
  calc p.wallWidthM * p.wallHeightM
      ≤ p.wallWidthM * effStripHeightOf p :=
        mul_le_mul_of_nonneg_left heffwh hww
    _ ≤ ((totalStripsOf p : ℚ) * p.rollWidthM) * effStripHeightOf p :=
        mul_le_mul_of_nonneg_right hSrw heff.le
    _ = (totalStripsOf p : ℚ) * (p.rollWidthM * effStripHeightOf p) := by ring
    _ ≤ ((totalRollsOf p : ℚ) * (stripsPerRollOf p : ℚ)) *
          (p.rollWidthM * effStripHeightOf p) :=
        mul_le_mul_of_nonneg_right hRP (mul_nonneg hrw0.le heff.le)
    _ = ((totalRollsOf p : ℚ) * p.rollWidthM) *
          ((stripsPerRollOf p : ℚ) * effStripHeightOf p) := by ring
    _ ≤ ((totalRollsOf p : ℚ) * p.rollWidthM) * p.rollLengthM :=
        mul_le_mul_of_nonneg_left hPeff (mul_nonneg hR0q hrw0.le)
    _ = (totalRollsOf p : ℚ) * (p.rollWidthM * p.rollLengthM) := by ring

/-- C10 (implicit): for all nonnegative inputs, whenever
`calcWallpaperAll` reports `totalRolls > 0` the purchased area is at
least the wall area, and the returned `wastePercent` always lies in
`[0, 100)` — never negative. -/
theorem claim10_waste_percent_bounds (p : WPParams)
    (hww : 0 ≤ p.wallWidthM) (hwh : 0 ≤ p.wallHeightM)
    (hrw : 0 ≤ p.rollWidthM) (hrl : 0 ≤ p.rollLengthM)
    (hpr : 0 ≤ p.patternRepeatCm) :
    (0 < (calcWallpaperAll p).totalRolls →
      (calcWallpaperAll p).wallArea ≤ (calcWallpaperAll p).totalPurchasedArea)
    ∧ 0 ≤ (calcWallpaperAll p).wastePercent
    ∧ (calcWallpaperAll p).wastePercent < 100 := by
  have hwp : (calcWallpaperAll p).wastePercent =
      if 0 < totalPurchasedAreaOf p then
        (totalPurchasedAreaOf p - calcWallArea p.wallWidthM p.wallHeightM) /
          totalPurchasedAreaOf p * 100
      else 0 := rfl
  constructor
  · intro hR
    exact (purchase_dominates p hww hrw hrl hR).1
  · rcases lt_or_le 0 (totalPurchasedAreaOf p) with htpa | htpa
    · have hR : 0 < totalRollsOf p := by
        by_contra h
        push_neg at h
        have hprod : 0 ≤ p.rollWidthM * p.rollLengthM := mul_nonneg hrw hrl
        have hR0 : (totalRollsOf p : ℚ) ≤ 0 := by exact_mod_cast h
        have : totalPurchasedAreaOf p ≤ 0 := by
          rw [totalPurchasedAreaOf]
          exact mul_nonpos_of_nonpos_of_nonneg hR0 hprod
        linarith
      obtain ⟨hle, hww0, hwh0⟩ := purchase_dominates p hww hrw hrl hR
      have hwa0 : 0 < p.wallWidthM * p.wallHeightM := mul_pos hww0 hwh0
      have hfrac : (totalPurchasedAreaOf p - calcWallArea p.wallWidthM p.wallHeightM) /
          totalPurchasedAreaOf p < 1 := by
        rw [div_lt_one htpa, calcWallArea]
        linarith
      have hfrac0 : 0 ≤ (totalPurchasedAreaOf p - calcWallArea p.wallWidthM p.wallHeightM) /
          totalPurchasedAreaOf p := by
        apply div_nonneg _ htpa.le
        rw [calcWallArea]
        linarith
      rw [hwp, if_pos htpa]
      constructor
      · positivity
      · nlinarith
    · rw [hwp, if_neg (not_lt.mpr htpa)]
      norm_num

/-- Witness for C10 at the worked roll scenario. -/
theorem claim10_witness :
    (0 < (calcWallpaperAll rollScenario).totalRolls →
      (calcWallpaperAll rollScenario).wallArea ≤
        (calcWallpaperAll rollScenario).totalPurchasedArea)
    ∧ 0 ≤ (calcWallpaperAll rollScenario).wastePercent
    ∧ (calcWallpaperAll rollScenario).wastePercent < 100 :=
  claim10_waste_percent_bounds rollScenario (by norm_num [rollScenario])
    (by norm_num [rollScenario]) (by norm_num [rollScenario])
    (by norm_num [rollScenario]) (by norm_num [rollScenario])

end WallpaperLogic
